import Mathlib

/-!
# Verification of the motor-weakness assessment component

This file gives a shallow embedding of the detection and session logic of
`src/HandRaiseDetection.js` (the `MotorWeaknessAssessment` React component)
and proves, or refutes, the frozen claims about it.

The embedding has two layers.

* A per-frame classifier (`processHand`, `detectFrame`), translated from the
  body of `detect` (lines 170-231): it rebuilds the per-side status records
  from scratch each frame, looks up the shoulder for the hand's side, and
  computes the shoulder-on-line flag and the shoulder-to-wrist angle flag.
  Coordinates and confidence scores are rationals; the angle uses `Complex.arg`
  as the exact-real counterpart of JavaScript's `Math.atan2`.

* A discrete-time session machine (`machineStep`, `runMachine`) for the
  stateful React component.  Time advances in 100 ms steps (the detection
  interval period).  Each step, in order: fires any due 1-second decrement
  timeouts armed by earlier ticks (the `setTimeout` at line 243; the code
  never cancels these, so the model keeps a list of pending fire times),
  applies a `resetChallenge` / `startChallenge` call if the input trace asks
  for one, applies the 1-second session-timer decrement on every tenth step
  (the `setInterval` at lines 77-85), runs the detection tick (lines 233-255)
  while the challenge is started, and finally runs the timer-completion
  effect (lines 88-95).  JavaScript's `null - 1 = -1` coercion in the
  decrement callback `prev => prev - 1` is modelled by `jsDecrement`.
  The model assumes the detectors are loaded and the webcam is ready, and
  puts the detection ticks, timeout firings and timer ticks on the common
  100 ms grid; this serialization is the only idealization of the browser's
  event loop.
-/

set_option maxRecDepth 100000

/-- Which arm is being assessed (`currentSide` in the source). -/
inductive Side where
  | left
  | right
deriving DecidableEq, Repr

/-- One side's per-frame status record (lines 174-177 of the source). -/
structure SideStatus where
  detected : Bool
  correctAngle : Bool
  shoulderTouching : Bool
deriving DecidableEq, Repr

/-- The pair of per-side status records (`handStates` in the source). -/
structure HandStates where
  left : SideStatus
  right : SideStatus
deriving DecidableEq, Repr

/-- Fresh all-false status, as rebuilt at the start of every frame. -/
def initSideStatus : SideStatus :=
  { detected := false, correctAngle := false, shoulderTouching := false }

/-- Fresh pair of all-false statuses (lines 174-177). -/
def initHandStates : HandStates := { left := initSideStatus, right := initSideStatus }

/-- Projection `handStates[side]`. -/
def HandStates.get (s : HandStates) : Side → SideStatus
  | Side.left => s.left
  | Side.right => s.right

/-- Update `handStates[side]`. -/
def HandStates.set (s : HandStates) : Side → SideStatus → HandStates
  | Side.left, v => { s with left := v }
  | Side.right, v => { s with right := v }

/-- The qualification test of lines 237-239: all three flags of the current
side's status must hold. -/
def okOf (st : SideStatus) : Bool :=
  st.detected && st.correctAngle && st.shoulderTouching

/-- Hold duration in seconds (`holdDuration`, line 27). -/
def holdDuration : Int := 10

/-- Session budget in seconds (lines 24 and 267). -/
def sessionBudget : Int := 60

/-- The mutable component state relevant to the session logic, together with
the multiset of pending decrement-timeout fire times (in 100 ms units).  The
source never stores those handles; keeping them in the state is how the
shallow embedding accounts for `setTimeout` callbacks that are still due. -/
structure MState where
  holdCountdown : Option Int
  isComplete : Bool
  challengeStarted : Bool
  showStartModal : Bool
  showCompletionModal : Bool
  timeLeft : Int
  currentSide : Side
  pending : List Nat
deriving DecidableEq, Repr

/-- Initial React state (lines 14-28). -/
def initState : MState :=
  { holdCountdown := none, isComplete := false, challengeStarted := false,
    showStartModal := true, showCompletionModal := false, timeLeft := sessionBudget,
    currentSide := Side.right, pending := [] }

/-- `startChallenge` (lines 264-271): unconditional reinitialization.  Note
that it does not touch `pending`: the source has no timeout cancellation. -/
def startChallenge (s : MState) : MState :=
  { s with showStartModal := false, challengeStarted := true,
           timeLeft := sessionBudget, holdCountdown := none,
           isComplete := false, currentSide := Side.right }

/-- `resetChallenge` (lines 274-282).  Again `pending` is untouched: the
source does not cancel outstanding decrement timeouts. -/
def resetChallenge (s : MState) : MState :=
  { s with isComplete := false, holdCountdown := none, challengeStarted := false,
           showStartModal := true, timeLeft := sessionBudget,
           showCompletionModal := false, currentSide := Side.right }

/-- The decrement callback `prev => prev - 1` (line 243) under JavaScript
semantics: `null` coerces to `0`, so a callback firing while the countdown is
`null` produces `-1`. -/
def jsDecrement : Option Int → Option Int
  | none => some (-1)
  | some n => some (n - 1)

/-- Apply `jsDecrement` a given number of times (one per due timeout). -/
def jsDecrementN : Nat → Option Int → Option Int
  | 0, cd => cd
  | n + 1, cd => jsDecrementN n (jsDecrement cd)

/-- Fire every pending decrement timeout whose scheduled time has arrived. -/
def fireDue (t : Nat) (s : MState) : MState :=
  { s with
    holdCountdown := jsDecrementN (s.pending.countP (fun ft => decide (ft ≤ t))) s.holdCountdown,
    pending := s.pending.filter (fun ft => decide (t < ft)) }

/-- The hold-state update of one detection tick (lines 240-255), given the
already-computed qualification bit `ok` of the current side.  When the
countdown is positive the tick arms a fresh one-shot 1000 ms timeout
(line 243) — it does not cancel previously armed ones. -/
def detectStep (t : Nat) (ok : Bool) (s : MState) : MState :=
  if ok then
    match s.holdCountdown with
    | none => { s with holdCountdown := some holdDuration }
    | some n =>
      if 0 < n then { s with pending := s.pending ++ [t + 10] }
      else if s.currentSide = Side.right then
        { s with currentSide := Side.left, holdCountdown := none }
      else
        { s with isComplete := true }
  else { s with holdCountdown := none }

/-- One detection tick fed by the current side's status record, i.e. line 234
(`newHandStates[currentSide]`) followed by the conjunction of lines 237-239. -/
def detectTick (t : Nat) (st : SideStatus) (s : MState) : MState :=
  detectStep t (okOf st) s

/-- Input of one 100 ms step: the freshly classified per-side statuses for
this frame, and whether the host clicks start / reset during this step. -/
structure Inp where
  states : HandStates
  doStart : Bool
  doReset : Bool
deriving Repr

/-- Apply a `resetChallenge` click, if the input asks for one. -/
def resetPhase (i : Inp) (s : MState) : MState :=
  if i.doReset then resetChallenge s else s

/-- Apply a `startChallenge` click, if the input asks for one. -/
def startPhase (i : Inp) (s : MState) : MState :=
  if i.doStart then startChallenge s else s

/-- The 1-second session-timer tick (lines 77-85): every tenth 100 ms step,
while the challenge is running with time left, `timeLeft` drops by one. -/
def timerPhase (t : Nat) (s : MState) : MState :=
  if s.challengeStarted ∧ 0 < s.timeLeft ∧ t % 10 = 0 then
    { s with timeLeft := s.timeLeft - 1 }
  else s

/-- The detection tick runs only while the challenge is started (the guard of
the effect at line 99). -/
def detectPhase (t : Nat) (i : Inp) (s : MState) : MState :=
  if s.challengeStarted then detectTick t (i.states.get s.currentSide) s else s

/-- The timer-completion effect (lines 88-95): once `timeLeft` is exhausted
while the challenge is running, stop it, and show the completion modal if the
assessment was completed. -/
def expiryPhase (s : MState) : MState :=
  if s.challengeStarted ∧ s.timeLeft ≤ 0 then
    { s with challengeStarted := false,
             showCompletionModal := s.isComplete || s.showCompletionModal }
  else s

/-- One 100 ms step of the component, in event order: due timeouts fire,
reset/start clicks apply, the 1 s session timer ticks, the detection tick
runs, and the timer-completion effect runs. -/
def machineStep (t : Nat) (i : Inp) (s : MState) : MState :=
  expiryPhase (detectPhase t i (timerPhase t (startPhase i (resetPhase i (fireDue t s)))))

/-- State after `t` steps of 100 ms driven by the input trace `inp`. -/
def runMachine (inp : Nat → Inp) : Nat → MState
  | 0 => initState
  | t + 1 => machineStep (t + 1) (inp (t + 1)) (runMachine inp t)

/-- Run `n` further steps after time `t` from state `s`.  Used to evaluate
long runs in bounded-depth chunks. -/
def runFrom (inp : Nat → Inp) : Nat → Nat → MState → MState
  | 0, _, s => s
  | n + 1, t, s => runFrom inp n (t + 1) (machineStep (t + 1) (inp (t + 1)) s)

/-- A frame in which both sides fully qualify. -/
def allOkStatus : SideStatus :=
  { detected := true, correctAngle := true, shoulderTouching := true }

/-- Both sides qualify. -/
def allOkStates : HandStates := { left := allOkStatus, right := allOkStatus }

/-- Trace A: the host clicks start at step 1 and the user's current arm
qualifies on every subsequent detection tick. -/
def inpA : Nat → Inp := fun t =>
  { states := allOkStates, doStart := t == 1, doReset := false }

/-- States along trace A. -/
def runA : Nat → MState := runMachine inpA

/-- Trace B: start at step 1, qualifying frames up to step 4 (arming decrement
timeouts due at steps 12-14), a reset click at step 5, nothing afterwards. -/
def inpB : Nat → Inp := fun t =>
  { states := if t ≤ 4 then allOkStates else initHandStates,
    doStart := t == 1, doReset := t == 5 }

/-- States along trace B. -/
def runB : Nat → MState := runMachine inpB


/-- The steady state reached on trace A once the (buggy) cascade of timeouts
has burnt out: both sides "done", countdown stuck at `-9`, `k` seconds left. -/
def sA (k : Int) : MState :=
  { holdCountdown := some (-9), isComplete := true, challengeStarted := true,
    showStartModal := false, showCompletionModal := false, timeLeft := k,
    currentSide := Side.left, pending := [] }

/-- The final state of trace A after the session timer expires. -/
def sDoneA : MState :=
  { holdCountdown := some (-9), isComplete := true, challengeStarted := false,
    showStartModal := false, showCompletionModal := true, timeLeft := 0,
    currentSide := Side.left, pending := [] }

/-! ## Helper lemmas about the session machine -/

/-- Splitting a run into two consecutive chunks. -/
theorem runFrom_add (inp : Nat → Inp) (m n t : Nat) (s : MState) :
    runFrom inp (m + n) t s = runFrom inp n (t + m) (runFrom inp m t s) := by
  induction m generalizing t s with
  | zero => simp [runFrom]
  | succ k ih =>
    have h1 : k + 1 + n = (k + n) + 1 := by omega
    rw [h1]
    show runFrom inp (k + n) (t + 1) (machineStep (t + 1) (inp (t + 1)) s) = _
    rw [ih]
    have h2 : t + 1 + k = t + (k + 1) := by omega
    rw [h2]
    rfl

/-- `runMachine` agrees with chunked evaluation through `runFrom`. -/
theorem runMachine_eq_runFrom (inp : Nat → Inp) (n : Nat) :
    runMachine inp n = runFrom inp n 0 initState := by
  induction n with
  | zero => rfl
  | succ k ih =>
    have h := runFrom_add inp k 1 0 initState
    show machineStep (k + 1) (inp (k + 1)) (runMachine inp k) = _
    rw [ih, h]
    simp [runFrom]

/-- Firing timeouts does not touch the completion modal. -/
theorem fireDue_modal (t : Nat) (s : MState) :
    (fireDue t s).showCompletionModal = s.showCompletionModal := rfl

/-- A detection tick does not touch the completion modal. -/
theorem detectStep_modal (t : Nat) (ok : Bool) (s : MState) :
    (detectStep t ok s).showCompletionModal = s.showCompletionModal := by
  unfold detectStep
  repeat' split
  all_goals rfl

/-- A start click does not touch the completion modal. -/
theorem startPhase_modal (i : Inp) (s : MState) :
    (startPhase i s).showCompletionModal = s.showCompletionModal := by
  unfold startPhase startChallenge
  split <;> rfl

/-- The session-timer tick does not touch the completion modal. -/
theorem timerPhase_modal (t : Nat) (s : MState) :
    (timerPhase t s).showCompletionModal = s.showCompletionModal := by
  unfold timerPhase
  split <;> rfl

/-- The detection phase does not touch the completion modal. -/
theorem detectPhase_modal (t : Nat) (i : Inp) (s : MState) :
    (detectPhase t i s).showCompletionModal = s.showCompletionModal := by
  unfold detectPhase
  split
  · exact detectStep_modal t (okOf (i.states.get s.currentSide)) s
  · rfl

/-- A hidden completion modal stays hidden through the reset phase. -/
theorem resetPhase_modal_false (i : Inp) (s : MState)
    (h : s.showCompletionModal = false) :
    (resetPhase i s).showCompletionModal = false := by
  unfold resetPhase resetChallenge
  split <;> simp [h]

/-- Without a reset click the reset phase is the identity. -/
theorem resetPhase_no_reset (i : Inp) (s : MState) (h : i.doReset = false) :
    resetPhase i s = s := by
  unfold resetPhase
  simp [h]

/-- If the timer-completion effect newly shows the modal, then at that very
point the session is complete, the timer is exhausted, and the session has
just been stopped. -/
theorem expiryPhase_rise (s : MState) (h0 : s.showCompletionModal = false)
    (h1 : (expiryPhase s).showCompletionModal = true) :
    (expiryPhase s).isComplete = true ∧ (expiryPhase s).timeLeft ≤ 0 ∧
    (expiryPhase s).challengeStarted = false ∧ s.challengeStarted = true := by
  unfold expiryPhase at h1 ⊢
  split at h1
  case isTrue hc =>
    rw [if_pos hc]
    refine ⟨?_, hc.2, rfl, hc.1⟩
    show s.isComplete = true
    simpa [h0] using h1
  case isFalse hc =>
    rw [h0] at h1
    exact absurd h1 (by simp)

/-- The completion modal can only be newly shown by a step that finds the
session complete with the timer exhausted, and that step stops the session. -/
theorem machineStep_modal_rise (t : Nat) (i : Inp) (s : MState)
    (h0 : s.showCompletionModal = false)
    (h1 : (machineStep t i s).showCompletionModal = true) :
    (machineStep t i s).isComplete = true ∧ (machineStep t i s).timeLeft ≤ 0 ∧
    (machineStep t i s).challengeStarted = false := by
  unfold machineStep at h1 ⊢
  have h5 : (detectPhase t i (timerPhase t (startPhase i (resetPhase i (fireDue t s))))).showCompletionModal = false := by
    rw [detectPhase_modal, timerPhase_modal, startPhase_modal]
    exact resetPhase_modal_false i _ (by rw [fireDue_modal]; exact h0)
  have h := expiryPhase_rise _ h5 h1
  exact ⟨h.1, h.2.1, h.2.2.1⟩

/-- Once shown, the completion modal stays shown through any step that does
not carry a reset click. -/
theorem machineStep_modal_persist (t : Nat) (i : Inp) (s : MState)
    (hr : i.doReset = false) (h : s.showCompletionModal = true) :
    (machineStep t i s).showCompletionModal = true := by
  unfold machineStep
  have h5 : (detectPhase t i (timerPhase t (startPhase i (resetPhase i (fireDue t s))))).showCompletionModal = true := by
    rw [detectPhase_modal, timerPhase_modal, startPhase_modal, resetPhase_no_reset i _ hr,
        fireDue_modal]
    exact h
  unfold expiryPhase
  split
  · simp [h5]
  · exact h5

/-- Along any run without reset clicks, a shown completion modal never goes
away: it can rise from hidden to shown at most once. -/
theorem runMachine_modal_persist (inp : Nat → Inp)
    (hnr : ∀ u, (inp u).doReset = false) (n k : Nat)
    (h : (runMachine inp n).showCompletionModal = true) :
    (runMachine inp (n + k)).showCompletionModal = true := by
  induction k with
  | zero => exact h
  | succ j ih =>
    show (machineStep (n + j + 1) (inp (n + j + 1)) (runMachine inp (n + j))).showCompletionModal = true
    exact machineStep_modal_persist _ _ _ (hnr _) ih

/-! ## Claims about the session machine -/

/-- C1: the spec demands at most one hold decrement per 1000 ms of wall-clock
time, with overlapping one-shot timers never double-decrementing.  The code
violates this: on trace A (start at step 1, qualifying frames on every 100 ms
tick) the countdown is still 10 at step 11 (1.1 s) but has already dropped to
9 at step 12 and to 8 at step 13 — two decrements 100 ms apart — because every
tick with a positive countdown arms a fresh uncancelled 1 s timeout.  The
right side is declared done at step 21 (2.1 s) and the whole assessment is
marked complete at step 22 (2.2 s), instead of the at-least-10-seconds-per-
side pace the claim requires. -/
theorem C1_overlapping_timeout_evaluation :
    (runA 1).holdCountdown = some holdDuration ∧
    (runA 11).holdCountdown = some 10 ∧
    (runA 12).holdCountdown = some 9 ∧
    (runA 13).holdCountdown = some 8 ∧
    (runA 21).currentSide = Side.left ∧
    (runA 22).isComplete = true := by decide

/-- C3: the spec demands that decrement sub-ticks scheduled before `reset()`
never mutate the hold state after the reset.  The code violates this: on
trace B (start at step 1, qualifying frames through step 4 arming timeouts
due at steps 12-14, reset at step 5) the countdown is `none` right after the
reset, but the un-cancelled timeout that fires at step 12 applies JavaScript
`null - 1` and sets it to `-1` — outside `{none} ∪ [0, holdDuration]` — while
the session sits in NotStarted. -/
theorem C3_reset_dangling_timeout_evaluation :
    (runB 4).holdCountdown = some 10 ∧
    (runB 4).pending = [12, 13, 14] ∧
    (runB 5).challengeStarted = false ∧
    (runB 5).holdCountdown = none ∧
    (runB 11).holdCountdown = none ∧
    (runB 12).holdCountdown = some (-1) ∧
    (runB 12).challengeStarted = false := by decide

/-- C2 counterexample: the claim says the completion notification fires at
the moment SessionState transitions into Completed.  On trace A the session
becomes complete at step 22, yet the completion modal is still hidden then
(and stays hidden at step 30): the notification does not fire at that
transition. -/
theorem C2_counterexample :
    (runA 21).isComplete = false ∧
    (runA 22).isComplete = true ∧
    (runA 22).showCompletionModal = false ∧
    (runA 30).showCompletionModal = false := by decide

/-- C2 (amended): a qualifying right-side hold followed by a qualifying
left-side hold marks the session complete (step 22 of trace A), but the
completion notification (the completion modal) fires only when the session
timer reaches 0 — hidden at step 599, shown at step 600 where `timeLeft = 0`
and the session stops — and it fires exactly once: any step that newly shows
it must find the session complete with the timer exhausted and stops the
session, and along any reset-free run the modal never returns to hidden, so
no second rise can occur. -/
theorem C2_completion_notification_at_expiry :
    (runA 22).isComplete = true ∧
    (runA 599).showCompletionModal = false ∧
    (runA 600).showCompletionModal = true ∧
    (runA 600).timeLeft = 0 ∧
    (runA 600).challengeStarted = false ∧
    (∀ t i s, s.showCompletionModal = false →
      (machineStep t i s).showCompletionModal = true →
      (machineStep t i s).isComplete = true ∧ (machineStep t i s).timeLeft ≤ 0 ∧
      (machineStep t i s).challengeStarted = false) ∧
    (∀ inp : Nat → Inp, (∀ u, (inp u).doReset = false) → ∀ n k,
      (runMachine inp n).showCompletionModal = true →
      (runMachine inp (n + k)).showCompletionModal = true) := by
  have m50 : runFrom inpA 50 0 initState = sA 55 := by decide
  have m100 : runFrom inpA 100 0 initState = sA 50 := by
    have h := runFrom_add inpA 50 50 0 initState
    norm_num at h
    rw [h, m50]; decide
  have m150 : runFrom inpA 150 0 initState = sA 45 := by
    have h := runFrom_add inpA 100 50 0 initState
    norm_num at h
    rw [h, m100]; decide
  have m200 : runFrom inpA 200 0 initState = sA 40 := by
    have h := runFrom_add inpA 150 50 0 initState
    norm_num at h
    rw [h, m150]; decide
  have m250 : runFrom inpA 250 0 initState = sA 35 := by
    have h := runFrom_add inpA 200 50 0 initState
    norm_num at h
    rw [h, m200]; decide
  have m300 : runFrom inpA 300 0 initState = sA 30 := by
    have h := runFrom_add inpA 250 50 0 initState
    norm_num at h
    rw [h, m250]; decide
  have m350 : runFrom inpA 350 0 initState = sA 25 := by
    have h := runFrom_add inpA 300 50 0 initState
    norm_num at h
    rw [h, m300]; decide
  have m400 : runFrom inpA 400 0 initState = sA 20 := by
    have h := runFrom_add inpA 350 50 0 initState
    norm_num at h
    rw [h, m350]; decide
  have m450 : runFrom inpA 450 0 initState = sA 15 := by
    have h := runFrom_add inpA 400 50 0 initState
    norm_num at h
    rw [h, m400]; decide
  have m500 : runFrom inpA 500 0 initState = sA 10 := by
    have h := runFrom_add inpA 450 50 0 initState
    norm_num at h
    rw [h, m450]; decide
  have m550 : runFrom inpA 550 0 initState = sA 5 := by
    have h := runFrom_add inpA 500 50 0 initState
    norm_num at h
    rw [h, m500]; decide
  have m599 : runFrom inpA 599 0 initState = sA 1 := by
    have h := runFrom_add inpA 550 49 0 initState
    norm_num at h
    rw [h, m550]; decide
  have m600 : runFrom inpA 600 0 initState = sDoneA := by
    have h := runFrom_add inpA 599 1 0 initState
    norm_num at h
    rw [h, m599]; decide
  have r599 : runA 599 = sA 1 := by
    show runMachine inpA 599 = sA 1
    rw [runMachine_eq_runFrom]; exact m599
  have r600 : runA 600 = sDoneA := by
    show runMachine inpA 600 = sDoneA
    rw [runMachine_eq_runFrom]; exact m600
  refine ⟨by decide, ?_, ?_, ?_, ?_, ?_, ?_⟩
  · rw [r599]; decide
  · rw [r600]; decide
  · rw [r600]; decide
  · rw [r600]; decide
  · intro t i s h0 h1
    exact machineStep_modal_rise t i s h0 h1
  · intro inp hnr n k h
    exact runMachine_modal_persist inp hnr n k h

/-- C2 witness: the persistence part applied at trace A, step 600 + 10 — the
modal, once shown at the timer expiry, is still shown a second later. -/
theorem C2_completion_notification_at_expiry_witness :
    (runA 610).showCompletionModal = true := by
  have h := C2_completion_notification_at_expiry
  have hp := h.2.2.2.2.2.2
  exact hp inpA (fun u => rfl) 600 10 h.2.2.1

/-- A Running state holding at `Holding(0)` with side Right. -/
def exHoldZeroRight : MState :=
  { initState with challengeStarted := true, holdCountdown := some 0,
                   showStartModal := false }

/-- The same state with side Left. -/
def exHoldZeroLeft : MState := { exHoldZeroRight with currentSide := Side.left }

/-- A status record that fails only the shoulder-on-line flag. -/
def partialStatus : SideStatus :=
  { detected := true, correctAngle := true, shoulderTouching := false }

/-- A Running state in the middle of a hold. -/
def exMidHold : MState :=
  { initState with challengeStarted := true, holdCountdown := some 7,
                   showStartModal := false }

/-- C4 counterexample: the claim says `start()` while Running is a no-op.  At
step 14 of trace A the session is Running with 59 s left, countdown 7 and
side Right; calling `startChallenge` there changes the timer and the hold
countdown, so the triple (SessionTimer, HoldState, Side) is not unchanged. -/
theorem C4_counterexample :
    (runA 14).challengeStarted = true ∧
    ¬ ((startChallenge (runA 14)).timeLeft = (runA 14).timeLeft ∧
       (startChallenge (runA 14)).holdCountdown = (runA 14).holdCountdown ∧
       (startChallenge (runA 14)).currentSide = (runA 14).currentSide) := by decide

/-- C4 (amended): `startChallenge` has no Running guard; called in any state
(Running included) it unconditionally reinitializes the session — timer back
to the full budget, hold state cleared, side back to Right, completion flag
cleared — and leaves pending decrement timeouts armed. -/
theorem C4_start_reinitializes (s : MState) :
    (startChallenge s).challengeStarted = true ∧
    (startChallenge s).timeLeft = sessionBudget ∧
    (startChallenge s).holdCountdown = none ∧
    (startChallenge s).currentSide = Side.right ∧
    (startChallenge s).isComplete = false ∧
    (startChallenge s).pending = s.pending :=
  ⟨rfl, rfl, rfl, rfl, rfl, rfl⟩

/-- C5: on a qualifying tick with `Holding(0)`, the Right side hands over to
the Left side with the hold reset to `Idle`, and the Left side marks the
session complete; moreover a detection tick can only ever keep the side or
move it Right-to-Left, and every entry point (`initState`, `startChallenge`,
`resetChallenge`) puts the side at Right — so the progression is always Right
first, then Left, with no other order possible. -/
theorem C5_hold_zero_side_progression (t : Nat) (st : SideStatus) (s : MState)
    (hok : okOf st = true) (h0 : s.holdCountdown = some 0) :
    (s.currentSide = Side.right →
      (detectTick t st s).currentSide = Side.left ∧
      (detectTick t st s).holdCountdown = none ∧
      (detectTick t st s).isComplete = s.isComplete) ∧
    (s.currentSide = Side.left →
      (detectTick t st s).isComplete = true ∧
      (detectTick t st s).currentSide = Side.left ∧
      (detectTick t st s).holdCountdown = some 0) ∧
    (∀ (u : Nat) (b : Bool) (v : MState),
      (detectStep u b v).currentSide = v.currentSide ∨
      (v.currentSide = Side.right ∧ (detectStep u b v).currentSide = Side.left)) ∧
    initState.currentSide = Side.right ∧
    (∀ v : MState, (startChallenge v).currentSide = Side.right ∧
      (resetChallenge v).currentSide = Side.right) := by
  refine ⟨?_, ?_, ?_, rfl, fun v => ⟨rfl, rfl⟩⟩
  · intro hr
    unfold detectTick detectStep
    rw [hok, h0]
    simp [hr]
  · intro hl
    unfold detectTick detectStep
    rw [hok, h0]
    simp [hl]
  · intro u b v
    unfold detectStep
    split
    · split
      · left; rfl
      · split
        · left; rfl
        · split
          case isTrue h => right; exact ⟨h, rfl⟩
          case isFalse h => left; rfl
    · left; rfl

/-- C5 witness: concrete qualifying ticks at `Holding(0)` — the Right side
switches to Left with the hold cleared, and the Left side completes. -/
theorem C5_hold_zero_side_progression_witness :
    (detectTick 30 allOkStatus exHoldZeroRight).currentSide = Side.left ∧
    (detectTick 30 allOkStatus exHoldZeroRight).holdCountdown = none ∧
    (detectTick 30 allOkStatus exHoldZeroLeft).isComplete = true := by
  have h1 := C5_hold_zero_side_progression 30 allOkStatus exHoldZeroRight rfl rfl
  have h2 := C5_hold_zero_side_progression 30 allOkStatus exHoldZeroLeft rfl rfl
  exact ⟨(h1.1 rfl).1, (h1.1 rfl).2.1, (h2.2.1 rfl).1⟩

/-- C6: on every detection tick whose status record fails the conjunction
`detected ∧ correctAngle ∧ shoulderTouching`, the hold countdown is reset to
`none` whatever its previous value, and the side, completion flag and pending
timeouts are untouched. -/
theorem C6_disqualify_resets_hold (t : Nat) (st : SideStatus) (s : MState)
    (h : okOf st = false) :
    (detectTick t st s).holdCountdown = none ∧
    (detectTick t st s).currentSide = s.currentSide ∧
    (detectTick t st s).isComplete = s.isComplete ∧
    (detectTick t st s).pending = s.pending := by
  unfold detectTick detectStep
  rw [h]
  simp

/-- C6 witness: a frame with the shoulder off the line wipes a hold that had
already counted down to 7. -/
theorem C6_disqualify_resets_hold_witness :
    (detectTick 9 partialStatus exMidHold).holdCountdown = none ∧
    exMidHold.holdCountdown = some 7 :=
  ⟨(C6_disqualify_resets_hold 9 partialStatus exMidHold rfl).1, rfl⟩

/-! ## Geometry and the per-frame classifier -/

/-- One estimated landmark: position and confidence score (`{x, y, score}`). -/
structure Keypoint where
  x : ℚ
  y : ℚ
  score : ℚ
deriving DecidableEq, Repr

/-- One hand prediction: a handedness label and its landmark list, index 0
being the wrist (lines 181-183). -/
structure HandDetection where
  handedness : String
  keypoints : List Keypoint
deriving DecidableEq, Repr

/-- The shoulder pair extracted from the pose prediction (lines 130-136);
`none` when the pose keypoint list does not reach the index. -/
structure Shoulders where
  left : Option Keypoint
  right : Option Keypoint
deriving DecidableEq, Repr

/-- Lines 130-136: shoulders come from keypoints 5 and 6 of the first pose
prediction; with no pose prediction this frame, both are missing. -/
def shouldersOfPose (pose : Option (List Keypoint)) : Shoulders :=
  match pose with
  | none => { left := none, right := none }
  | some kps => { left := kps[5]?, right := kps[6]? }

/-- JavaScript's `toLowerCase()`, character by character (the handedness
labels are plain ASCII `"Left"` / `"Right"`). -/
def jsToLower (s : String) : String := ⟨s.data.map Char.toLower⟩

/-- Line 183-186: the handedness label is lower-cased and compared with
`"left"`; anything else counts as the right side. -/
def sideOfHand (h : HandDetection) : Side :=
  if jsToLower h.handedness = "left" then Side.left else Side.right

/-- The shoulder used for a given side (line 187). -/
def shoulderFor (shs : Shoulders) : Side → Option Keypoint
  | Side.left => shs.left
  | Side.right => shs.right

/-- Line-proximity tolerance in pixels (the literal `20` at line 202). -/
def lineTolerance : ℚ := 20

/-- Shoulder confidence threshold (the literal `0.3` at line 201). -/
def scoreThreshold : ℚ := 0.3

/-- Line 202: `Math.abs(shoulder.y - shoulderLineY) < 20`. -/
def shoulderOnLine (sh : Keypoint) (lineY : ℚ) : Bool :=
  decide (|sh.y - lineY| < lineTolerance)

/-- The value the `shoulderTouching` flag receives for a present shoulder:
the guard of line 201 composed with the test of line 202.  A missing shoulder
or one at confidence ≤ 0.3 never counts as on the line. -/
def shoulderTouchingFlag (shoulder : Option Keypoint) (lineY : ℚ) : Bool :=
  match shoulder with
  | none => false
  | some sh => if scoreThreshold < sh.score then shoulderOnLine sh lineY else false

/-- `Math.atan2` (y first, x second) converted to degrees; `Complex.arg` is
the exact-real function with the same branch cut and range (-π, π]. -/
noncomputable def atan2deg (dy dx : ℝ) : ℝ :=
  Complex.arg ⟨dx, dy⟩ * (180 / Real.pi)

/-- Lines 205-211: the angle from shoulder to wrist, with `dy` inverted
because screen y grows downward, negatives wrapped by adding 360. -/
noncomputable def normalizedAngle (shoulder wrist : Keypoint) : ℝ :=
  let dx : ℝ := (wrist.x : ℝ) - (shoulder.x : ℝ)
  let dy : ℝ := (shoulder.y : ℝ) - (wrist.y : ℝ)
  let angle := atan2deg dy dx
  if angle < 0 then angle + 360 else angle

/-- The spec's `computeAngle` (§4.1), written from its words: angle of the
vector from shoulder to wrist as `atan2(shoulder.y − wrist.y, wrist.x −
shoulder.x)` in degrees, negative results mapped into [0,360) by adding 360. -/
noncomputable def computeAngle_spec (shoulder wrist : Keypoint) : ℝ :=
  let raw := atan2deg ((shoulder.y : ℝ) - (wrist.y : ℝ)) ((wrist.x : ℝ) - (shoulder.x : ℝ))
  if raw < 0 then raw + 360 else raw

/-- Line 215: target 135° for the left hand, 45° for the right hand. -/
noncomputable def targetAngleForSide : Side → ℝ
  | Side.left => 135
  | Side.right => 45

/-- Angle tolerance in degrees (`angleTolerance`, line 33). -/
noncomputable def angleToleranceDeg : ℝ := 15

/-- Lines 216-218: the raw absolute difference against the side's target —
no wraparound correction — compared inclusively with the tolerance. -/
noncomputable def correctAngleFlag (shoulder wrist : Keypoint) (side : Side) : Bool :=
  decide (|normalizedAngle shoulder wrist - targetAngleForSide side| ≤ angleToleranceDeg)

/-- The assignment `newHandStates[side].detected = true` (line 190). -/
def markDetected (states : HandStates) (side : Side) : HandStates :=
  states.set side { states.get side with detected := true }

/-- The assignment `newHandStates[side].shoulderTouching = ...` (line 203). -/
def markTouching (states : HandStates) (side : Side) (v : Bool) : HandStates :=
  states.set side { states.get side with shoulderTouching := v }

/-- The assignment `newHandStates[side].correctAngle = ...` (line 218). -/
def markAngle (states : HandStates) (side : Side) (v : Bool) : HandStates :=
  states.set side { states.get side with correctAngle := v }

/-- Processing of one hand prediction (lines 180-229) against the running
`newHandStates`: mark the side detected; then, only under the shoulder guard
of line 201, set the `shoulderTouching` flag and compute the angle flag from
the wrist (`landmarks[0]`).  A hand with an empty landmark list makes the
guarded block dereference `undefined` — a thrown `TypeError`, modelled as
`Except.error`; the flag assignment of line 203 happens before the throw. -/
noncomputable def processHand (shs : Shoulders) (lineY : ℚ) (states : HandStates)
    (h : HandDetection) : Except String HandStates :=
  match shoulderFor shs (sideOfHand h) with
  | none => Except.ok (markDetected states (sideOfHand h))
  | some sh =>
    if scoreThreshold < sh.score then
      match h.keypoints.head? with
      | none => Except.error "TypeError: cannot read properties of undefined"
      | some wrist =>
        Except.ok (markAngle
          (markTouching (markDetected states (sideOfHand h)) (sideOfHand h)
            (shoulderOnLine sh lineY))
          (sideOfHand h) (correctAngleFlag sh wrist (sideOfHand h)))
    else Except.ok (markDetected states (sideOfHand h))

/-- `handPredictions.forEach` (line 180): process the hands left to right,
stopping at the first thrown exception. -/
noncomputable def foldHands (shs : Shoulders) (lineY : ℚ) :
    HandStates → List HandDetection → Except String HandStates
  | s, [] => Except.ok s
  | s, h :: t =>
    match processHand shs lineY s h with
    | Except.ok s2 => foldHands shs lineY s2 t
    | Except.error e => Except.error e

/-- The whole per-frame hand loop (lines 173-229): fold `processHand` over
the prediction list starting from the freshly reset `newHandStates`. -/
noncomputable def detectFrame (shs : Shoulders) (lineY : ℚ)
    (hands : List HandDetection) : Except String HandStates :=
  foldHands shs lineY initHandStates hands

/-- Whether the frame's hand loop ran to completion without throwing. -/
noncomputable def frameOk (shs : Shoulders) (lineY : ℚ) (hands : List HandDetection) : Bool :=
  match detectFrame shs lineY hands with
  | Except.ok _ => true
  | Except.error _ => false

/-- The status pair produced by the frame (meaningful when `frameOk`). -/
noncomputable def frameStates (shs : Shoulders) (lineY : ℚ)
    (hands : List HandDetection) : HandStates :=
  match detectFrame shs lineY hands with
  | Except.ok st => st
  | Except.error _ => initHandStates

/-- Whether a side's shoulder passes the guard of line 201. -/
def shoulderQualifiesB (shs : Shoulders) (side : Side) : Bool :=
  match shoulderFor shs side with
  | none => false
  | some sh => decide (scoreThreshold < sh.score)

/-- The last prediction in the list carrying the given side's handedness. -/
def lastOfSide (hands : List HandDetection) (side : Side) : Option HandDetection :=
  (hands.filter (fun h => decide (sideOfHand h = side))).getLast?

/-! ## Claims about the geometry -/

/-- C7: the computed arm angle is exactly the spec's
`atan2(shoulder.y − wrist.y, wrist.x − shoulder.x)` in degrees with negatives
wrapped into [0,360) by adding 360, and the angle flag holds iff the raw
absolute difference from the side's target (45° right, 135° left) is at most
15° — no wraparound correction near 0°/360°. -/
theorem C7_angle_formula (shoulder wrist : Keypoint) (side : Side) :
    normalizedAngle shoulder wrist = computeAngle_spec shoulder wrist ∧
    (correctAngleFlag shoulder wrist side = true ↔
      |normalizedAngle shoulder wrist -
        (if side = Side.left then (135 : ℝ) else 45)| ≤ 15) := by
  constructor
  · rfl
  · unfold correctAngleFlag targetAngleForSide angleToleranceDeg
    rw [decide_eq_true_iff]
    cases side <;> simp

/-- C8: for a present shoulder the `shoulderTouching` flag holds iff its
confidence exceeds 0.3 and its distance to the reference line is strictly
below the 20 px tolerance; a shoulder exactly at the tolerance, or one with
confidence ≤ 0.3, or a missing shoulder, is never on the line. -/
theorem C8_shoulder_on_line (sh : Keypoint) (lineY : ℚ) :
    (shoulderTouchingFlag (some sh) lineY = true ↔
      scoreThreshold < sh.score ∧ |sh.y - lineY| < lineTolerance) ∧
    (|sh.y - lineY| = lineTolerance → shoulderTouchingFlag (some sh) lineY = false) ∧
    (sh.score ≤ scoreThreshold → shoulderTouchingFlag (some sh) lineY = false) ∧
    shoulderTouchingFlag none lineY = false := by
  refine ⟨?_, ?_, ?_, rfl⟩
  · unfold shoulderTouchingFlag shoulderOnLine
    by_cases hs : scoreThreshold < sh.score <;> simp [hs]
  · intro hb
    unfold shoulderTouchingFlag shoulderOnLine
    by_cases hs : scoreThreshold < sh.score <;> simp [hs, hb]
  · intro hs
    unfold shoulderTouchingFlag
    simp [not_lt.mpr hs]

/-- C8 witness: a shoulder exactly 20 px off the line is rejected, a
low-confidence shoulder on the line is rejected, and a confident shoulder
5 px off the line is accepted. -/
theorem C8_shoulder_on_line_witness :
    shoulderTouchingFlag (some ⟨0, 90, 1⟩) 70 = false ∧
    shoulderTouchingFlag (some ⟨0, 75, 0.2⟩) 70 = false ∧
    shoulderTouchingFlag (some ⟨0, 75, 1⟩) 70 = true :=
  ⟨(C8_shoulder_on_line ⟨0, 90, 1⟩ 70).2.1 (by norm_num [lineTolerance]),
   (C8_shoulder_on_line ⟨0, 75, 0.2⟩ 70).2.2.1 (by norm_num [scoreThreshold]),
   (C8_shoulder_on_line ⟨0, 75, 1⟩ 70).1.mpr
     (by norm_num [scoreThreshold, lineTolerance])⟩

/-! ## Helper lemmas about the per-frame classifier -/

/-- Reading the side just written. -/
theorem HandStates.get_set_same (s : HandStates) (side : Side) (v : SideStatus) :
    (s.set side v).get side = v := by
  cases side <;> rfl

/-- Reading the other side is unaffected by a write. -/
theorem HandStates.get_set_other (s : HandStates) (side side2 : Side)
    (v : SideStatus) (h : side2 ≠ side) :
    (s.set side v).get side2 = s.get side2 := by
  cases side <;> cases side2 <;> first | rfl | exact absurd rfl h

/-- Overwriting the same side keeps only the last write. -/
theorem HandStates.set_set (s : HandStates) (side : Side) (u v : SideStatus) :
    (s.set side u).set side v = s.set side v := by
  cases side <;> rfl

/-- Both sides of the fresh pair are the all-false record. -/
theorem initHandStates_get (side : Side) : initHandStates.get side = initSideStatus := by
  cases side <;> rfl

/-- Two status records agree once all three flags agree. -/
theorem SideStatus.eq_of_parts (a b : SideStatus) (h1 : a.detected = b.detected)
    (h2 : a.correctAngle = b.correctAngle)
    (h3 : a.shoulderTouching = b.shoulderTouching) : a = b := by
  cases a; cases b; simp_all

/-- The three chained per-side assignments collapse to a single write. -/
theorem markAll_eq_set (states : HandStates) (side : Side) (v1 v2 : Bool) :
    markAngle (markTouching (markDetected states side) side v1) side v2 =
    states.set side
      { detected := true, correctAngle := v2, shoulderTouching := v1 } := by
  unfold markAngle markTouching markDetected
  rw [HandStates.get_set_same, HandStates.set_set, HandStates.get_set_same,
      HandStates.set_set]

/-- The total (exception-free) version of `processHand`, agreeing with it on
every hand whose landmark list is non-empty. -/
noncomputable def processHandPure (shs : Shoulders) (lineY : ℚ) (states : HandStates)
    (h : HandDetection) : HandStates :=
  match shoulderFor shs (sideOfHand h), h.keypoints.head? with
  | some sh, some wrist =>
    if scoreThreshold < sh.score then
      states.set (sideOfHand h)
        { detected := true, correctAngle := correctAngleFlag sh wrist (sideOfHand h),
          shoulderTouching := shoulderOnLine sh lineY }
    else markDetected states (sideOfHand h)
  | _, _ => markDetected states (sideOfHand h)

/-- On hands with a wrist landmark, `processHand` cannot throw and computes
the pure step. -/
theorem processHand_eq_pure (shs : Shoulders) (lineY : ℚ) (states : HandStates)
    (h : HandDetection) (hk : h.keypoints ≠ []) :
    processHand shs lineY states h = Except.ok (processHandPure shs lineY states h) := by
  obtain ⟨w, hw⟩ : ∃ w, h.keypoints.head? = some w := by
    cases hkp : h.keypoints with
    | nil => exact absurd hkp hk
    | cons a l => exact ⟨a, rfl⟩
  unfold processHand processHandPure
  rcases hsh : shoulderFor shs (sideOfHand h) with _ | sh
  · simp [hsh, hw]
  · simp only [hsh, hw]
    by_cases hs : scoreThreshold < sh.score
    · simp only [if_pos hs]
      rw [markAll_eq_set]
    · simp only [if_neg hs]

/-- A qualifying shoulder for a side is a present one above the threshold. -/
theorem qualifies_iff (shs : Shoulders) (side : Side) :
    shoulderQualifiesB shs side = true ↔
    ∃ sh, shoulderFor shs side = some sh ∧ scoreThreshold < sh.score := by
  unfold shoulderQualifiesB
  rcases hsh : shoulderFor shs side with _ | sh <;> simp [hsh]

/-- `processHandPure` touches only its own side. -/
theorem processHandPure_get_other (shs : Shoulders) (lineY : ℚ) (s : HandStates)
    (h : HandDetection) (side : Side) (hne : sideOfHand h ≠ side) :
    (processHandPure shs lineY s h).get side = s.get side := by
  unfold processHandPure markDetected
  rcases hsh : shoulderFor shs (sideOfHand h) with _ | sh <;>
    rcases hw : h.keypoints.head? with _ | w <;>
      simp only [hsh, hw] <;>
        first
        | exact HandStates.get_set_other s (sideOfHand h) side _ (Ne.symm hne)
        | (by_cases hs : scoreThreshold < sh.score <;>
            simp only [if_pos, if_neg, hs, reduceIte] <;>
            exact HandStates.get_set_other s (sideOfHand h) side _ (Ne.symm hne))

/-- With a qualifying shoulder and a wrist landmark, the step overwrites its
own side's record completely. -/
theorem processHandPure_get_own_qual (shs : Shoulders) (lineY : ℚ) (s : HandStates)
    (h : HandDetection) (sh : Keypoint) (w : Keypoint)
    (hsh : shoulderFor shs (sideOfHand h) = some sh)
    (hs : scoreThreshold < sh.score)
    (hw : h.keypoints.head? = some w) :
    (processHandPure shs lineY s h).get (sideOfHand h) =
    { detected := true, correctAngle := correctAngleFlag sh w (sideOfHand h),
      shoulderTouching := shoulderOnLine sh lineY } := by
  unfold processHandPure
  simp only [hsh, hw, if_pos hs]
  exact HandStates.get_set_same s (sideOfHand h) _

/-- Without a qualifying shoulder, or without a wrist landmark, the step only
marks its own side detected, keeping the old flags. -/
theorem processHandPure_get_own_detonly (shs : Shoulders) (lineY : ℚ) (s : HandStates)
    (h : HandDetection)
    (hcase : shoulderQualifiesB shs (sideOfHand h) = false ∨ h.keypoints.head? = none) :
    (processHandPure shs lineY s h).get (sideOfHand h) =
    { s.get (sideOfHand h) with detected := true } := by
  unfold processHandPure markDetected
  rcases hsh : shoulderFor shs (sideOfHand h) with _ | sh
  · rcases hw : h.keypoints.head? with _ | w <;> simp only [hsh, hw] <;>
      exact HandStates.get_set_same s (sideOfHand h) _
  · rcases hw : h.keypoints.head? with _ | w
    · simp only [hsh, hw]
      exact HandStates.get_set_same s (sideOfHand h) _
    · have hs : ¬ scoreThreshold < sh.score := by
        rcases hcase with hq | hwn
        · unfold shoulderQualifiesB at hq
          rw [hsh] at hq
          simpa using hq
        · rw [hw] at hwn; cases hwn
      simp only [hsh, hw, if_neg hs]
      exact HandStates.get_set_same s (sideOfHand h) _

/-- Every step marks its own side detected. -/
theorem processHandPure_detected_own (shs : Shoulders) (lineY : ℚ) (s : HandStates)
    (h : HandDetection) :
    ((processHandPure shs lineY s h).get (sideOfHand h)).detected = true := by
  by_cases hq : shoulderQualifiesB shs (sideOfHand h) = true
  · rcases hw : h.keypoints.head? with _ | w
    · rw [processHandPure_get_own_detonly shs lineY s h (Or.inr hw)]
    · obtain ⟨sh, hsh, hs⟩ := (qualifies_iff shs (sideOfHand h)).mp hq
      rw [processHandPure_get_own_qual shs lineY s h sh w hsh hs hw]
  · have hq2 : shoulderQualifiesB shs (sideOfHand h) = false := by
      revert hq; cases shoulderQualifiesB shs (sideOfHand h) <;> simp
    rw [processHandPure_get_own_detonly shs lineY s h (Or.inl hq2)]

/-- A side already marked detected stays detected through any step. -/
theorem processHandPure_detected_mono (shs : Shoulders) (lineY : ℚ) (s : HandStates)
    (h : HandDetection) (side : Side) (hd : (s.get side).detected = true) :
    ((processHandPure shs lineY s h).get side).detected = true := by
  by_cases he : sideOfHand h = side
  · subst he; exact processHandPure_detected_own shs lineY s h
  · rw [processHandPure_get_other shs lineY s h side he]; exact hd

/-- With a non-qualifying shoulder on a side, no step changes that side's
angle or line flag. -/
theorem processHandPure_flags_nonqual (shs : Shoulders) (lineY : ℚ) (s : HandStates)
    (h : HandDetection) (side : Side) (hq : shoulderQualifiesB shs side = false) :
    ((processHandPure shs lineY s h).get side).correctAngle = (s.get side).correctAngle ∧
    ((processHandPure shs lineY s h).get side).shoulderTouching = (s.get side).shoulderTouching := by
  by_cases he : sideOfHand h = side
  · subst he
    rw [processHandPure_get_own_detonly shs lineY s h (Or.inl hq)]
    exact ⟨rfl, rfl⟩
  · rw [processHandPure_get_other shs lineY s h side he]
    exact ⟨rfl, rfl⟩

/-- The value a step leaves on one side depends only on that side's previous
value. -/
theorem processHandPure_get_congr (shs : Shoulders) (lineY : ℚ) (h : HandDetection)
    (side : Side) (s t : HandStates) (he : s.get side = t.get side) :
    (processHandPure shs lineY s h).get side = (processHandPure shs lineY t h).get side := by
  by_cases hs : sideOfHand h = side
  · subst hs
    by_cases hq : shoulderQualifiesB shs (sideOfHand h) = true
    · rcases hw : h.keypoints.head? with _ | w
      · rw [processHandPure_get_own_detonly shs lineY s h (Or.inr hw),
            processHandPure_get_own_detonly shs lineY t h (Or.inr hw), he]
      · obtain ⟨sh, hsh, hsc⟩ := (qualifies_iff shs (sideOfHand h)).mp hq
        rw [processHandPure_get_own_qual shs lineY s h sh w hsh hsc hw,
            processHandPure_get_own_qual shs lineY t h sh w hsh hsc hw]
    · have hq2 : shoulderQualifiesB shs (sideOfHand h) = false := by
        revert hq; cases shoulderQualifiesB shs (sideOfHand h) <;> simp
      rw [processHandPure_get_own_detonly shs lineY s h (Or.inl hq2),
          processHandPure_get_own_detonly shs lineY t h (Or.inl hq2), he]
  · rw [processHandPure_get_other shs lineY s h side hs,
        processHandPure_get_other shs lineY t h side hs]
    exact he

/-- On a list of wrist-bearing hands the whole loop cannot throw and equals
the pure left fold. -/
theorem foldHands_eq_pure (shs : Shoulders) (lineY : ℚ) :
    ∀ (hands : List HandDetection), (∀ h ∈ hands, h.keypoints ≠ []) →
    ∀ s : HandStates,
      foldHands shs lineY s hands =
      Except.ok (List.foldl (processHandPure shs lineY) s hands) := by
  intro hands
  induction hands with
  | nil => intro _ s; rfl
  | cons h t ih =>
    intro hk s
    show (match processHand shs lineY s h with
          | Except.ok s2 => foldHands shs lineY s2 t
          | Except.error e => Except.error e) = _
    rw [processHand_eq_pure shs lineY s h (hk h (List.mem_cons_self h t))]
    rw [List.foldl_cons]
    exact ih (fun x hx => hk x (List.mem_cons_of_mem h hx)) _

/-- The frame never throws on wrist-bearing hands. -/
theorem frameOk_eq_true (shs : Shoulders) (lineY : ℚ) (hands : List HandDetection)
    (hk : ∀ h ∈ hands, h.keypoints ≠ []) : frameOk shs lineY hands = true := by
  unfold frameOk detectFrame
  rw [foldHands_eq_pure shs lineY hands hk initHandStates]

/-- The frame's status pair is the pure fold from the all-false pair. -/
theorem frameStates_eq_foldl (shs : Shoulders) (lineY : ℚ) (hands : List HandDetection)
    (hk : ∀ h ∈ hands, h.keypoints ≠ []) :
    frameStates shs lineY hands =
    List.foldl (processHandPure shs lineY) initHandStates hands := by
  unfold frameStates detectFrame
  rw [foldHands_eq_pure shs lineY hands hk initHandStates]

/-- A side mentioned by no hand keeps its starting record through the fold. -/
theorem foldl_pure_get_other (shs : Shoulders) (lineY : ℚ) (side : Side) :
    ∀ (hands : List HandDetection) (s : HandStates),
      (∀ h ∈ hands, sideOfHand h ≠ side) →
      (List.foldl (processHandPure shs lineY) s hands).get side = s.get side := by
  intro hands
  induction hands with
  | nil => intro s _; rfl
  | cons h t ih =>
    intro s hall
    rw [List.foldl_cons, ih _ (fun x hx => hall x (List.mem_cons_of_mem h hx)),
        processHandPure_get_other shs lineY s h side (hall h (List.mem_cons_self h t))]

/-- With a non-qualifying shoulder, the fold keeps a side's angle and line
flags at their starting values. -/
theorem foldl_pure_flags_nonqual (shs : Shoulders) (lineY : ℚ) (side : Side)
    (hq : shoulderQualifiesB shs side = false) :
    ∀ (hands : List HandDetection) (s : HandStates),
      ((List.foldl (processHandPure shs lineY) s hands).get side).correctAngle =
        (s.get side).correctAngle ∧
      ((List.foldl (processHandPure shs lineY) s hands).get side).shoulderTouching =
        (s.get side).shoulderTouching := by
  intro hands
  induction hands with
  | nil => intro s; exact ⟨rfl, rfl⟩
  | cons h t ih =>
    intro s
    rw [List.foldl_cons]
    exact ⟨(ih _).1.trans (processHandPure_flags_nonqual shs lineY s h side hq).1,
           (ih _).2.trans (processHandPure_flags_nonqual shs lineY s h side hq).2⟩

/-- Once detected, a side stays detected through the rest of the fold. -/
theorem foldl_pure_detected_mono (shs : Shoulders) (lineY : ℚ) (side : Side) :
    ∀ (hands : List HandDetection) (s : HandStates),
      (s.get side).detected = true →
      ((List.foldl (processHandPure shs lineY) s hands).get side).detected = true := by
  intro hands
  induction hands with
  | nil => intro s hd; exact hd
  | cons h t ih =>
    intro s hd
    rw [List.foldl_cons]
    exact ih _ (processHandPure_detected_mono shs lineY s h side hd)

/-- Any hand of a side marks that side detected for the frame. -/
theorem foldl_pure_detected (shs : Shoulders) (lineY : ℚ) (side : Side) :
    ∀ (hands : List HandDetection) (s : HandStates),
      (∃ h ∈ hands, sideOfHand h = side) →
      ((List.foldl (processHandPure shs lineY) s hands).get side).detected = true := by
  intro hands
  induction hands with
  | nil =>
    intro s hex
    obtain ⟨x, hx, _⟩ := hex
    cases hx
  | cons h t ih =>
    intro s hex
    rw [List.foldl_cons]
    by_cases he : sideOfHand h = side
    · apply foldl_pure_detected_mono shs lineY side t
      rw [← he]
      exact processHandPure_detected_own shs lineY s h
    · obtain ⟨x, hx, hxs⟩ := hex
      rcases List.mem_cons.mp hx with rfl | hxt
      · exact absurd hxs he
      · exact ih _ ⟨x, hxt, hxs⟩

/-- The fold's value on one side depends only on that side's start value. -/
theorem foldl_pure_get_congr (shs : Shoulders) (lineY : ℚ) (side : Side) :
    ∀ (hands : List HandDetection) (s t : HandStates),
      s.get side = t.get side →
      (List.foldl (processHandPure shs lineY) s hands).get side =
      (List.foldl (processHandPure shs lineY) t hands).get side := by
  intro hands
  induction hands with
  | nil => intro s t he; exact he
  | cons h u ih =>
    intro s t he
    rw [List.foldl_cons, List.foldl_cons]
    exact ih _ _ (processHandPure_get_congr shs lineY h side s t he)

/-- On one side, the fold sees only the hands of that side: filtering the
list to that handedness does not change the side's record. -/
theorem foldl_pure_filter (shs : Shoulders) (lineY : ℚ) (side : Side) :
    ∀ (hands : List HandDetection) (s : HandStates),
      (List.foldl (processHandPure shs lineY) s hands).get side =
      (List.foldl (processHandPure shs lineY) s
        (hands.filter (fun h => decide (sideOfHand h = side)))).get side := by
  intro hands
  induction hands with
  | nil => intro s; rfl
  | cons h t ih =>
    intro s
    by_cases hs : sideOfHand h = side
    · rw [List.filter_cons_of_pos (by simpa using hs), List.foldl_cons, List.foldl_cons]
      exact ih _
    · rw [List.filter_cons_of_neg (by simpa using hs), List.foldl_cons]
      rw [ih _]
      exact foldl_pure_get_congr shs lineY side _ _ _
        (processHandPure_get_other shs lineY s h side hs)

/-- The last element of a list, when it exists, is a member. -/
theorem lastMem {α : Type} (l : List α) (a : α) (h : l.getLast? = some a) : a ∈ l := by
  rcases List.eq_nil_or_concat l with rfl | ⟨L, b, rfl⟩
  · cases h
  · rw [List.concat_eq_append, List.getLast?_concat] at h
    obtain rfl : b = a := Option.some.inj h
    simp

/-! ## Claims about the per-frame classifier -/

/-- C9: per frame the status pair is rebuilt from scratch as a pure function
of this frame's detections — the fold starts from the all-false pair, so no
previous frame's value can leak in.  On wrist-bearing hands the loop never
throws; a side with no hand this frame ends fully false; a side whose
shoulder is missing or at confidence ≤ 0.3 ends with both the angle and the
line flag false (degraded, while a present hand still sets `detected`). -/
theorem C9_frame_isolation (shs : Shoulders) (lineY : ℚ) (hands : List HandDetection)
    (side : Side) (hk : ∀ h ∈ hands, h.keypoints ≠ []) :
    frameOk shs lineY hands = true ∧
    ((∀ h ∈ hands, sideOfHand h ≠ side) →
      (frameStates shs lineY hands).get side = initSideStatus) ∧
    (shoulderQualifiesB shs side = false →
      ((frameStates shs lineY hands).get side).correctAngle = false ∧
      ((frameStates shs lineY hands).get side).shoulderTouching = false) ∧
    ((∃ h ∈ hands, sideOfHand h = side) →
      ((frameStates shs lineY hands).get side).detected = true) := by
  refine ⟨frameOk_eq_true shs lineY hands hk, ?_, ?_, ?_⟩
  · intro hall
    rw [frameStates_eq_foldl shs lineY hands hk,
        foldl_pure_get_other shs lineY side hands initHandStates hall,
        initHandStates_get]
  · intro hq
    rw [frameStates_eq_foldl shs lineY hands hk]
    have h := foldl_pure_flags_nonqual shs lineY side hq hands initHandStates
    rw [initHandStates_get] at h
    exact h
  · intro hex
    rw [frameStates_eq_foldl shs lineY hands hk]
    exact foldl_pure_detected shs lineY side hands initHandStates hex

/-- A left hand seen while the left shoulder has confidence 0.2 and the
right shoulder is missing. -/
def exShoulders : Shoulders := { left := some ⟨0, 0, 0.2⟩, right := none }

/-- One left-hand prediction with a wrist landmark. -/
def exHands : List HandDetection := [⟨"Left", [⟨1, 2, 1⟩]⟩]

/-- C9 witness: with a low-confidence left shoulder, the frame still runs
without throwing, marks the left side detected, and degrades both flags. -/
theorem C9_frame_isolation_witness :
    frameOk exShoulders 70 exHands = true ∧
    ((frameStates exShoulders 70 exHands).get Side.left).correctAngle = false ∧
    ((frameStates exShoulders 70 exHands).get Side.left).shoulderTouching = false ∧
    ((frameStates exShoulders 70 exHands).get Side.left).detected = true := by
  have h := C9_frame_isolation exShoulders 70 exHands Side.left (by decide)
  have hq : shoulderQualifiesB exShoulders Side.left = false := by
    norm_num [shoulderQualifiesB, shoulderFor, exShoulders, scoreThreshold]
  exact ⟨h.1, (h.2.2.1 hq).1, (h.2.2.1 hq).2, h.2.2.2 (by decide)⟩

/-- C10: the per-frame computation is a pure function of the pose and the
ordered hand list (two runs on the same inputs are definitionally the same
value), and when several detections carry one side's handedness, that side's
record equals the one computed from the last such detection alone. -/
theorem C10_last_detection_determines (shs : Shoulders) (lineY : ℚ)
    (hands : List HandDetection) (side : Side)
    (hk : ∀ h ∈ hands, h.keypoints ≠ []) :
    (frameStates shs lineY hands).get side =
    (frameStates shs lineY ((lastOfSide hands side).toList)).get side := by
  have hsub : ∀ h, lastOfSide hands side = some h → h ∈ hands ∧ sideOfHand h = side := by
    intro h hlast
    unfold lastOfSide at hlast
    have hmem := lastMem _ h hlast
    have hm := List.mem_filter.mp hmem
    exact ⟨hm.1, of_decide_eq_true hm.2⟩
  have hk2 : ∀ h ∈ (lastOfSide hands side).toList, h.keypoints ≠ [] := by
    intro h hh
    rcases hlast : lastOfSide hands side with _ | x
    · rw [hlast] at hh; cases hh
    · rw [hlast] at hh
      obtain rfl : h = x := by simpa using hh
      exact hk h (hsub h hlast).1
  rw [frameStates_eq_foldl shs lineY hands hk, frameStates_eq_foldl _ _ _ hk2]
  rw [foldl_pure_filter shs lineY side hands initHandStates]
  rcases hcat : hands.filter (fun h => decide (sideOfHand h = side)) with _ | _
  case nil =>
    unfold lastOfSide
    rw [hcat]
    rfl
  case cons =>
    rcases List.eq_nil_or_concat (hands.filter (fun h => decide (sideOfHand h = side)))
      with hnil | ⟨L, b, hLb⟩
    · rw [hnil] at hcat; cases hcat
    · rw [List.concat_eq_append] at hLb
      rw [← hcat, hLb]
      unfold lastOfSide
      rw [hLb, List.getLast?_concat]
      have hbmem : b ∈ hands.filter (fun h => decide (sideOfHand h = side)) := by
        rw [hLb]; simp
      have hbf := List.mem_filter.mp hbmem
      have hbside : sideOfHand b = side := of_decide_eq_true hbf.2
      show (List.foldl (processHandPure shs lineY) initHandStates (L ++ [b])).get side =
        (List.foldl (processHandPure shs lineY) initHandStates [b]).get side
      rw [List.foldl_append]
      simp only [List.foldl_cons, List.foldl_nil]
      rw [← hbside]
      by_cases hq : shoulderQualifiesB shs side = true
      · obtain ⟨sh, hsh, hsc⟩ := (qualifies_iff shs side).mp hq
        obtain ⟨w, hw⟩ : ∃ w, b.keypoints.head? = some w := by
          have hbk := hk b hbf.1
          cases hkp : b.keypoints with
          | nil => exact absurd hkp hbk
          | cons a l => exact ⟨a, rfl⟩
        rw [processHandPure_get_own_qual shs lineY _ b sh w (by rw [hbside]; exact hsh) hsc hw,
            processHandPure_get_own_qual shs lineY initHandStates b sh w
              (by rw [hbside]; exact hsh) hsc hw]
      · have hq2 : shoulderQualifiesB shs side = false := by
          revert hq; cases shoulderQualifiesB shs side <;> simp
        rw [processHandPure_get_own_detonly shs lineY _ b (Or.inl (by rw [hbside]; exact hq2)),
            processHandPure_get_own_detonly shs lineY initHandStates b
              (Or.inl (by rw [hbside]; exact hq2))]
        have hflags := foldl_pure_flags_nonqual shs lineY side hq2 L initHandStates
        apply SideStatus.eq_of_parts
        · rfl
        · show ((List.foldl (processHandPure shs lineY) initHandStates L).get (sideOfHand b)).correctAngle =
            (initHandStates.get (sideOfHand b)).correctAngle
          rw [hbside]
          exact hflags.1
        · show ((List.foldl (processHandPure shs lineY) initHandStates L).get (sideOfHand b)).shoulderTouching =
            (initHandStates.get (sideOfHand b)).shoulderTouching
          rw [hbside]
          exact hflags.2

/-- A confident left shoulder sitting exactly on the reference line. -/
def exShouldersQ : Shoulders := { left := some ⟨0, 70, 1⟩, right := none }

/-- Two left-hand predictions (one label upper-case, one lower-case) with
different wrists. -/
def exHandsTwo : List HandDetection :=
  [⟨"Left", [⟨10, 60, 1⟩]⟩, ⟨"left", [⟨0, 200, 1⟩]⟩]

/-- C10 witness: with two left-hand detections in the frame, the left side's
record is the one computed from the later detection alone. -/
theorem C10_last_detection_determines_witness :
    (frameStates exShouldersQ 70 exHandsTwo).get Side.left =
    (frameStates exShouldersQ 70 ((lastOfSide exHandsTwo Side.left).toList)).get Side.left :=
  C10_last_detection_determines exShouldersQ 70 exHandsTwo Side.left (by decide)
